import Mathlib

/-!
Shallow embedding of the `pharma_trace` Anchor program
(`src/anchor/programs/pharma_trace/src/lib.rs`).

The program has two instructions:
* `sign_consent(agreement_hash)` — creates a `ConsentRecord` at the
  program-derived address with seeds `[b"consent", patient.key()]`
  (Anchor `init` constraint: fails if an account already exists there);
* `reward_patient(amount)` — requires the caller (`researcher` signer) to be
  the hardcoded `RESEARCHER_PUBKEY`, sets `is_verified := true`, and performs
  an SPL-token transfer of `amount` from `vault_token_account` to
  `patient_token_account` signed by the PDA `[b"vault_authority"]`.

Modelling choices:
* Solana `Pubkey`s are an inductive type: `base k` for keypair-derived
  addresses and two PDA constructors mirroring the exact two seed shapes the
  program uses (`create_program_address` over `[tag, key]` resp. `[tag]` plus
  a bump byte).  Constructor injectivity stands in for SHA-256
  collision-freeness of Solana's program-address derivation.
* Ledger state is two association lists (consent-record accounts and SPL
  token accounts), keyed by `Pubkey`.
* u64 quantities are `Nat`; the SPL token program's checked arithmetic is
  modelled explicitly (insufficient-funds and overflow checks), so no
  modular wraparound can occur.
* A transaction either returns `Except.ok` with the whole new state or an
  error with no state: this is exactly the runtime's atomic commit/abort.
  `applyOp` is the committed-state view (failed transaction leaves the
  ledger unchanged).
* Anchor account validation (`#[derive(Accounts)]` constraints) runs before
  the instruction handler body, in struct-field order; the handler body is
  translated line by line after it.
-/

namespace PharmaTrace

/-- Byte strings (`&[u8]` seed material, 32-byte hashes). -/
abbrev Bytes := List Nat

/-- The seed literal `b"consent"` (line 62 and line 72 of the source). -/
def consentTag : Bytes := [99, 111, 110, 115, 101, 110, 116]

/-- The seed literal `b"vault_authority"` (lines 31 and 78 of the source). -/
def vaultAuthorityTag : Bytes :=
  [118, 97, 117, 108, 116, 95, 97, 117, 116, 104, 111, 114, 105, 116, 121]

/-- Solana addresses.  `base k` is a keypair-derived address (32-byte value
`k`).  The two PDA constructors mirror `create_program_address` applied to the
two seed shapes occurring in this program: `[tag, key]` and `[tag]`, each
completed by a bump byte.  Distinct seed material yields distinct addresses by
constructor injectivity (modelling collision-free derivation). -/
inductive Pubkey where
  | base (k : Nat)
  | pdaTagKey (tag : Bytes) (key : Pubkey) (bump : Nat)
  | pdaTag (tag : Bytes) (bump : Nat)
deriving DecidableEq, Repr

/-- The hardcoded authorized researcher,
`pubkey!("ESQzmo4dRJ6g3ECjUUDVTarwaFfpqqMuzwCGiDBub6xt")` decoded to its
32-byte value. -/
def RESEARCHER_PUBKEY : Pubkey :=
  .base 0xc7aa952cf51f4786d130babe3ed3a0c6c3f69c35de38f677c8e422176829cdad

/-- Model of the canonical bump returned by `find_program_address` (Anchor's
`ctx.bumps.*`): a fixed deterministic byte.  No claim depends on its value,
only on its determinism. -/
def canonicalBump : Nat := 255

/-- `create_program_address([tag, key.as_ref()], bump)`. -/
def createProgramAddress2 (tag : Bytes) (key : Pubkey) (bump : Nat) : Pubkey :=
  .pdaTagKey tag key bump

/-- `create_program_address([tag], bump)`. -/
def createProgramAddress1 (tag : Bytes) (bump : Nat) : Pubkey :=
  .pdaTag tag bump

/-- Address of the consent record as derived by the `SignConsent` accounts
struct: `seeds = [b"consent", patient.key().as_ref()]` (source lines 61-63). -/
def signConsentRecordAddress (patient : Pubkey) (bump : Nat) : Pubkey :=
  createProgramAddress2 consentTag patient bump

/-- Address of the consent record as derived by the `RewardPatient` accounts
struct: `seeds = [b"consent", patient_wallet.key().as_ref()]`, with
`bump = consent_record.bump` (source line 72). -/
def rewardPatientRecordAddress (patient_wallet : Pubkey) (bump : Nat) : Pubkey :=
  createProgramAddress2 consentTag patient_wallet bump

/-- The `#[account] pub struct ConsentRecord` of the source (lines 47-53). -/
structure ConsentRecord where
  patient : Pubkey
  agreement_hash : Bytes
  is_verified : Bool
  bump : Nat
deriving DecidableEq, Repr

/-- An SPL token account, with the fields the token program's `transfer`
consults: owning authority, mint, and u64 balance. -/
structure TokenAccount where
  owner : Pubkey
  mint : Pubkey
  amount : Nat
deriving DecidableEq, Repr

/-- Errors surfaced by the two instructions.  `UnauthorizedResearcher` is the
program's own `#[error_code]` (lines 86-90); the others are the runtime /
Anchor / SPL-token errors named in the spec's taxonomy. -/
inductive PharmaError where
  | UnauthorizedResearcher
  | AddressCollision
  | DerivationMismatch
  | AccountNotInitialized
  | TransferFailure
deriving DecidableEq, Repr

/-- Association-list lookup keyed by `Pubkey`. -/
def lookupAcc {α : Type} : List (Pubkey × α) → Pubkey → Option α
  | [], _ => none
  | (a, v) :: rest, x => if a = x then some v else lookupAcc rest x

/-- Association-list update at an existing key (keys are preserved). -/
def updateAcc {α : Type} (l : List (Pubkey × α)) (x : Pubkey) (v : α) :
    List (Pubkey × α) :=
  l.map fun p => if p.1 = x then (x, v) else p

/-- The on-ledger state visible to this program: consent-record accounts and
SPL token accounts. -/
structure ChainState where
  records : List (Pubkey × ConsentRecord)
  tokens : List (Pubkey × TokenAccount)
deriving DecidableEq, Repr

/-- `sign_consent` (source lines 12-20), including the `SignConsent` accounts
struct's `init` constraint (lines 57-64): the record account is allocated at
the canonical PDA of `[b"consent", patient.key()]`; allocation fails if any
account already occupies that address (the system program's
"account already in use", the spec's `AddressCollision`).  The handler body
then stores the patient key, the agreement hash, `is_verified = false`, and
the derivation bump. -/
def sign_consent (st : ChainState) (patient : Pubkey) (agreement_hash : Bytes) :
    Except PharmaError ChainState :=
  let bump := canonicalBump
  let addr := signConsentRecordAddress patient bump
  if (lookupAcc st.records addr).isSome ∨ (lookupAcc st.tokens addr).isSome then
    .error .AddressCollision
  else
    let record : ConsentRecord :=
      { patient := patient
        agreement_hash := agreement_hash
        is_verified := false
        bump := bump }
    .ok { st with records := (addr, record) :: st.records }

/-- The accounts of the `RewardPatient` context (source lines 70-84), by
address, together with the signing caller. -/
structure RewardPatientAccounts where
  consent_record : Pubkey
  vault_token_account : Pubkey
  patient_token_account : Pubkey
  vault_authority : Pubkey
  patient_wallet : Pubkey
  researcher : Pubkey
deriving DecidableEq, Repr

/-- The SPL token program's `transfer` instruction as invoked via CPI: source
and destination token accounts must exist, the signing authority must be the
source account's owner, mints must agree, the source balance must cover the
amount, and the destination balance must not overflow u64.  A self-transfer
(source = destination) leaves balances unchanged. -/
def splTransfer (st : ChainState) (source dest authority : Pubkey)
    (amount : Nat) : Except PharmaError ChainState :=
  match lookupAcc st.tokens source, lookupAcc st.tokens dest with
  | some src, some dst =>
    if authority ≠ src.owner then .error .TransferFailure
    else if src.mint ≠ dst.mint then .error .TransferFailure
    else if src.amount < amount then .error .TransferFailure
    else if 2 ^ 64 ≤ dst.amount + amount then .error .TransferFailure
    else if source = dest then .ok st
    else
      .ok { st with
        tokens :=
          updateAcc
            (updateAcc st.tokens source { src with amount := src.amount - amount })
            dest { dst with amount := dst.amount + amount } }
  | _, _ => .error .TransferFailure

/-- `reward_patient` (source lines 22-44) together with the account
validation Anchor generates from the `RewardPatient` struct (lines 70-84):
the consent record must exist and sit at
`create_program_address([b"consent", patient_wallet.key()], consent_record.bump)`;
both token accounts must exist; `vault_authority` must be the canonical PDA of
`[b"vault_authority"]`.  The handler body then (1) requires
`researcher.key() = RESEARCHER_PUBKEY`, failing with `UnauthorizedResearcher`
otherwise; (2) sets `is_verified := true`; (3) invokes the token transfer
signed with seeds `[b"vault_authority", bump]`.  An error at any point aborts
the whole transaction. -/
def reward_patient (st : ChainState) (a : RewardPatientAccounts)
    (amount : Nat) : Except PharmaError ChainState :=
  match lookupAcc st.records a.consent_record with
  | none => .error .AccountNotInitialized
  | some record =>
    if a.consent_record ≠ rewardPatientRecordAddress a.patient_wallet record.bump then
      .error .DerivationMismatch
    else if (lookupAcc st.tokens a.vault_token_account).isNone then
      .error .AccountNotInitialized
    else if (lookupAcc st.tokens a.patient_token_account).isNone then
      .error .AccountNotInitialized
    else if a.vault_authority ≠ createProgramAddress1 vaultAuthorityTag canonicalBump then
      .error .DerivationMismatch
    else if a.researcher ≠ RESEARCHER_PUBKEY then
      .error .UnauthorizedResearcher
    else
      let record' := { record with is_verified := true }
      let st1 : ChainState :=
        { st with records := updateAcc st.records a.consent_record record' }
      splTransfer st1 a.vault_token_account a.patient_token_account
        a.vault_authority amount

/-- A transaction submitted to the ledger. -/
inductive Op where
  | sign (patient : Pubkey) (agreement_hash : Bytes)
  | reward (accounts : RewardPatientAccounts) (amount : Nat)
deriving DecidableEq, Repr

/-- Run one transaction. -/
def runOp (st : ChainState) : Op → Except PharmaError ChainState
  | .sign patient agreement_hash => sign_consent st patient agreement_hash
  | .reward accounts amount => reward_patient st accounts amount

/-- The ledger's atomic application of a transaction: a failed transaction
commits nothing. -/
def applyOp (st : ChainState) (op : Op) : ChainState :=
  match runOp st op with
  | .ok st' => st'
  | .error _ => st

/-- Apply a sequence of transactions in order. -/
def applyOps (st : ChainState) (ops : List Op) : ChainState :=
  ops.foldl applyOp st

/-- Invariant: every consent record in the ledger is stored at the address
derived from the tag `"consent"` and the record's own `patient` key,
completed by the record's stored bump, and that bump is the canonical
derivation bump. -/
def RecInv (st : ChainState) : Prop :=
  ∀ addr r, lookupAcc st.records addr = some r →
    addr = createProgramAddress2 consentTag r.patient r.bump ∧
    r.bump = canonicalBump

/-! ### Concrete instances, used to exercise the theorems -/

/-- A ledger with no accounts at all. -/
def emptyState : ChainState := ⟨[], []⟩

/-- A sample patient keypair address. -/
def alicePk : Pubkey := .base 1

/-- Address holding the escrow vault's tokens. -/
def vaultTokenAddr : Pubkey := .base 2

/-- Address holding the patient's tokens. -/
def patientTokenAddr : Pubkey := .base 3

/-- The reward token mint. -/
def mintAddr : Pubkey := .base 4

/-- A 32-byte agreement hash `0xAA…AA`. -/
def aliceHash : Bytes := List.replicate 32 170

/-- A second 32-byte agreement hash `0xBB…BB`. -/
def otherHash : Bytes := List.replicate 32 187

/-- The canonical vault-authority PDA. -/
def vaultAuthorityPda : Pubkey :=
  createProgramAddress1 vaultAuthorityTag canonicalBump

/-- The canonical consent-record PDA for `alicePk`. -/
def aliceRecordAddr : Pubkey := signConsentRecordAddress alicePk canonicalBump

/-- The consent record `sign_consent` creates for `alicePk` and
`aliceHash`. -/
def aliceRecord : ConsentRecord :=
  { patient := alicePk, agreement_hash := aliceHash, is_verified := false
    bump := canonicalBump }

/-- The same record with `is_verified` already set. -/
def aliceRecordVerified : ConsentRecord := { aliceRecord with is_verified := true }

/-- The escrow vault's token account, owned by the vault-authority PDA. -/
def vaultAcc : TokenAccount :=
  { owner := vaultAuthorityPda, mint := mintAddr, amount := 5000 }

/-- The patient's token account. -/
def patientAcc : TokenAccount :=
  { owner := alicePk, mint := mintAddr, amount := 7 }

/-- A token account at the patient slot owned by a third party, not by the
record's subject. -/
def strangerAcc : TokenAccount :=
  { owner := .base 50, mint := mintAddr, amount := 7 }

/-- Ledger holding alice's signed (unverified) record and the two token
accounts. -/
def demoState : ChainState :=
  ⟨[(aliceRecordAddr, aliceRecord)],
    [(vaultTokenAddr, vaultAcc), (patientTokenAddr, patientAcc)]⟩

/-- The ledger right after `sign_consent(emptyState, alicePk, aliceHash)`. -/
def signedState : ChainState := ⟨[(aliceRecordAddr, aliceRecord)], []⟩

/-- `demoState` after alice's record has been verified once. -/
def demoStateVerified : ChainState :=
  ⟨[(aliceRecordAddr, aliceRecordVerified)],
    [(vaultTokenAddr, vaultAcc), (patientTokenAddr, patientAcc)]⟩

/-- `demoState` with the destination token account owned by a stranger. -/
def demoStateStranger : ChainState :=
  ⟨[(aliceRecordAddr, aliceRecord)],
    [(vaultTokenAddr, vaultAcc), (patientTokenAddr, strangerAcc)]⟩

/-- The accounts a well-formed authorized `reward_patient` call supplies. -/
def demoAccounts : RewardPatientAccounts :=
  { consent_record := aliceRecordAddr
    vault_token_account := vaultTokenAddr
    patient_token_account := patientTokenAddr
    vault_authority := vaultAuthorityPda
    patient_wallet := alicePk
    researcher := RESEARCHER_PUBKEY }

/-- The same accounts signed by an unauthorized caller. -/
def strangerAccounts : RewardPatientAccounts :=
  { demoAccounts with researcher := .base 99 }

/-- The committed state after `reward_patient(demoState, demoAccounts, 1000)`. -/
def demoStateRewarded : ChainState :=
  ⟨[(aliceRecordAddr, aliceRecordVerified)],
    [(vaultTokenAddr, { vaultAcc with amount := 4000 }),
      (patientTokenAddr, { patientAcc with amount := 1007 })]⟩

/-! ### Association-list lemmas -/

theorem lookupAcc_nil {α : Type} (x : Pubkey) :
    lookupAcc ([] : List (Pubkey × α)) x = none := rfl

theorem lookupAcc_cons {α : Type} (a : Pubkey) (v : α)
    (rest : List (Pubkey × α)) (x : Pubkey) :
    lookupAcc ((a, v) :: rest) x = if a = x then some v else lookupAcc rest x := rfl

theorem updateAcc_cons {α : Type} (a : Pubkey) (w : α)
    (rest : List (Pubkey × α)) (x : Pubkey) (v : α) :
    updateAcc ((a, w) :: rest) x v =
      (if a = x then (x, v) else (a, w)) :: updateAcc rest x v := by
  by_cases h : a = x <;> simp [updateAcc, h]

theorem lookupAcc_updateAcc {α : Type} (l : List (Pubkey × α)) (x : Pubkey)
    (v : α) (y : Pubkey) :
    lookupAcc (updateAcc l x v) y =
      if y = x then (lookupAcc l x).map (fun _ => v) else lookupAcc l y := by
  induction l with
  | nil =>
    by_cases h : y = x <;> simp [updateAcc, lookupAcc, h]
  | cons p rest ih =>
    obtain ⟨a, w⟩ := p
    rw [updateAcc_cons]
    by_cases hax : a = x
    · subst hax
      rw [if_pos rfl, lookupAcc_cons, lookupAcc_cons, lookupAcc_cons, if_pos rfl]
      by_cases hay : a = y
      · subst hay
        rw [if_pos rfl, if_pos rfl]
        rfl
      · rw [if_neg hay, if_neg hay, ih, if_neg (fun h => hay h.symm),
          if_neg (fun h => hay h.symm)]
    · rw [if_neg hax, lookupAcc_cons, lookupAcc_cons, lookupAcc_cons, if_neg hax]
      by_cases hay : a = y
      · subst hay
        rw [if_pos rfl, if_pos rfl, if_neg (fun h : a = x => hax h)]
      · rw [if_neg hay, if_neg hay, ih]

theorem lookupAcc_updateAcc_self {α : Type} (l : List (Pubkey × α)) (x : Pubkey)
    (v w : α) (h : lookupAcc l x = some w) :
    lookupAcc (updateAcc l x v) x = some v := by
  rw [lookupAcc_updateAcc, if_pos rfl, h]
  rfl

theorem lookupAcc_updateAcc_other {α : Type} (l : List (Pubkey × α)) (x : Pubkey)
    (v : α) (y : Pubkey) (h : y ≠ x) :
    lookupAcc (updateAcc l x v) y = lookupAcc l y := by
  rw [lookupAcc_updateAcc, if_neg h]

theorem isSome_lookupAcc_updateAcc {α : Type} (l : List (Pubkey × α)) (x : Pubkey)
    (v : α) (y : Pubkey) :
    (lookupAcc (updateAcc l x v) y).isSome = (lookupAcc l y).isSome := by
  rw [lookupAcc_updateAcc]
  by_cases h : y = x
  · subst h
    simp
  · simp [h]

/-! ### Behaviour of `sign_consent` -/

theorem sign_consent_ok_iff (st : ChainState) (S : Pubkey) (H : Bytes) :
    (∃ st', sign_consent st S H = .ok st') ↔
      ¬ ((lookupAcc st.records (signConsentRecordAddress S canonicalBump)).isSome ∨
        (lookupAcc st.tokens (signConsentRecordAddress S canonicalBump)).isSome) := by
  constructor
  · rintro ⟨st', h⟩ hcond
    simp only [sign_consent] at h
    rw [if_pos hcond] at h
    exact Except.noConfusion h
  · intro hcond
    refine ⟨{ st with records :=
      (signConsentRecordAddress S canonicalBump,
        { patient := S, agreement_hash := H, is_verified := false,
          bump := canonicalBump : ConsentRecord }) :: st.records }, ?_⟩
    simp only [sign_consent]
    rw [if_neg hcond]

theorem sign_consent_ok_state (st st' : ChainState) (S : Pubkey) (H : Bytes)
    (h : sign_consent st S H = .ok st') :
    st'.records =
      (signConsentRecordAddress S canonicalBump,
        { patient := S, agreement_hash := H, is_verified := false,
          bump := canonicalBump : ConsentRecord }) :: st.records ∧
    st'.tokens = st.tokens := by
  simp only [sign_consent] at h
  by_cases hcond : (lookupAcc st.records (signConsentRecordAddress S canonicalBump)).isSome ∨
      (lookupAcc st.tokens (signConsentRecordAddress S canonicalBump)).isSome
  · rw [if_pos hcond] at h
    exact Except.noConfusion h
  · rw [if_neg hcond] at h
    cases h
    exact ⟨rfl, rfl⟩

theorem sign_consent_collision (st : ChainState) (S : Pubkey) (H : Bytes)
    (hbusy : (lookupAcc st.records (signConsentRecordAddress S canonicalBump)).isSome) :
    sign_consent st S H = .error .AddressCollision := by
  simp only [sign_consent]
  rw [if_pos (Or.inl hbusy)]

/-- C4: for every subject identity S and 32-byte hash H, a first
`sign_consent(S, H)` succeeds, and the stored record is exactly
`{subject_identity = S, agreement_hash = H, is_verified = false}` together
with the derivation bump. -/
theorem sign_consent_first_creates_record (st : ChainState) (S : Pubkey)
    (H : Bytes) (hlen : H.length = 32)
    (hfree : lookupAcc st.records (signConsentRecordAddress S canonicalBump) = none)
    (hfree' : lookupAcc st.tokens (signConsentRecordAddress S canonicalBump) = none) :
    ∃ st', sign_consent st S H = .ok st' ∧
      lookupAcc st'.records (signConsentRecordAddress S canonicalBump) =
        some { patient := S, agreement_hash := H, is_verified := false,
               bump := canonicalBump } := by
  have hcond : ¬ ((lookupAcc st.records (signConsentRecordAddress S canonicalBump)).isSome ∨
      (lookupAcc st.tokens (signConsentRecordAddress S canonicalBump)).isSome) := by
    rw [hfree, hfree']
    simp
  obtain ⟨st', hok⟩ := (sign_consent_ok_iff st S H).mpr hcond
  refine ⟨st', hok, ?_⟩
  obtain ⟨hrecs, -⟩ := sign_consent_ok_state st st' S H hok
  rw [hrecs, lookupAcc_cons, if_pos rfl]

/-! ### Behaviour of `reward_patient` -/

theorem reward_patient_success (st : ChainState) (a : RewardPatientAccounts)
    (amount : Nat) (record : ConsentRecord) (vault patientTok : TokenAccount)
    (hrec : lookupAcc st.records a.consent_record = some record)
    (hseeds : a.consent_record = rewardPatientRecordAddress a.patient_wallet record.bump)
    (hvault : lookupAcc st.tokens a.vault_token_account = some vault)
    (hpat : lookupAcc st.tokens a.patient_token_account = some patientTok)
    (hvauth : a.vault_authority = createProgramAddress1 vaultAuthorityTag canonicalBump)
    (hres : a.researcher = RESEARCHER_PUBKEY)
    (howner : vault.owner = a.vault_authority)
    (hmint : vault.mint = patientTok.mint)
    (hbal : amount ≤ vault.amount)
    (hflow : patientTok.amount + amount < 2 ^ 64)
    (hdiff : a.vault_token_account ≠ a.patient_token_account) :
    reward_patient st a amount =
      .ok ⟨updateAcc st.records a.consent_record { record with is_verified := true },
        updateAcc
          (updateAcc st.tokens a.vault_token_account
            { vault with amount := vault.amount - amount })
          a.patient_token_account
          { patientTok with amount := patientTok.amount + amount }⟩ := by
  simp only [reward_patient, hrec]
  rw [if_neg (fun h => h hseeds)]
  rw [hvault, hpat]
  simp only [Option.isNone_some, Bool.false_eq_true, if_false]
  rw [if_neg (fun h => h hvauth), if_neg (fun h => h hres)]
  simp only [splTransfer]
  rw [show ({ st with records := updateAcc st.records a.consent_record { record with is_verified := true } } : ChainState).tokens = st.tokens from rfl]
  simp only [hvault, hpat]
  rw [if_neg (fun h => h howner.symm)]
  rw [if_neg (fun h => h hmint)]
  rw [if_neg (Nat.not_lt.mpr hbal)]
  rw [if_neg (Nat.not_le.mpr hflow)]
  rw [if_neg hdiff]

theorem reward_patient_effects (st : ChainState) (a : RewardPatientAccounts)
    (amount : Nat) (record : ConsentRecord) (vault patientTok : TokenAccount)
    (hrec : lookupAcc st.records a.consent_record = some record)
    (hseeds : a.consent_record = rewardPatientRecordAddress a.patient_wallet record.bump)
    (hvault : lookupAcc st.tokens a.vault_token_account = some vault)
    (hpat : lookupAcc st.tokens a.patient_token_account = some patientTok)
    (hvauth : a.vault_authority = createProgramAddress1 vaultAuthorityTag canonicalBump)
    (hres : a.researcher = RESEARCHER_PUBKEY)
    (howner : vault.owner = a.vault_authority)
    (hmint : vault.mint = patientTok.mint)
    (hbal : amount ≤ vault.amount)
    (hflow : patientTok.amount + amount < 2 ^ 64)
    (hdiff : a.vault_token_account ≠ a.patient_token_account) :
    ∃ st₂, reward_patient st a amount = .ok st₂ ∧
      lookupAcc st₂.records a.consent_record =
        some { record with is_verified := true } ∧
      lookupAcc st₂.tokens a.vault_token_account =
        some { vault with amount := vault.amount - amount } ∧
      lookupAcc st₂.tokens a.patient_token_account =
        some { patientTok with amount := patientTok.amount + amount } ∧
      (vault.amount - amount) + (patientTok.amount + amount) =
        vault.amount + patientTok.amount := by
  refine ⟨_, reward_patient_success st a amount record vault patientTok hrec
    hseeds hvault hpat hvauth hres howner hmint hbal hflow hdiff,
    ?_, ?_, ?_, ?_⟩
  · exact lookupAcc_updateAcc_self st.records a.consent_record _ record hrec
  · rw [lookupAcc_updateAcc_other _ a.patient_token_account _ _ hdiff]
    exact lookupAcc_updateAcc_self st.tokens a.vault_token_account _ vault hvault
  · refine lookupAcc_updateAcc_self _ a.patient_token_account _ patientTok ?_
    rw [lookupAcc_updateAcc_other _ a.vault_token_account _ _ (Ne.symm hdiff)]
    exact hpat
  · omega

/-- C1: for every amount and every existing consent record, `reward_patient`
invoked by the fixed authorized identity (with the accounts satisfying their
constraints, the vault holding at least `amount`, and no u64 overflow on the
destination) succeeds, sets the record's `is_verified` to true, decreases the
vault token balance by `amount`, increases the patient token balance by
`amount`, and conserves the sum of the two balances. -/
theorem reward_patient_authorized_transfers (st : ChainState)
    (a : RewardPatientAccounts) (amount : Nat) (record : ConsentRecord)
    (vault patientTok : TokenAccount)
    (hrec : lookupAcc st.records a.consent_record = some record)
    (hseeds : a.consent_record = rewardPatientRecordAddress a.patient_wallet record.bump)
    (hvault : lookupAcc st.tokens a.vault_token_account = some vault)
    (hpat : lookupAcc st.tokens a.patient_token_account = some patientTok)
    (hvauth : a.vault_authority = createProgramAddress1 vaultAuthorityTag canonicalBump)
    (hres : a.researcher = RESEARCHER_PUBKEY)
    (howner : vault.owner = a.vault_authority)
    (hmint : vault.mint = patientTok.mint)
    (hbal : amount ≤ vault.amount)
    (hflow : patientTok.amount + amount < 2 ^ 64)
    (hdiff : a.vault_token_account ≠ a.patient_token_account) :
    ∃ st₂, reward_patient st a amount = .ok st₂ ∧
      lookupAcc st₂.records a.consent_record =
        some { record with is_verified := true } ∧
      lookupAcc st₂.tokens a.vault_token_account =
        some { vault with amount := vault.amount - amount } ∧
      lookupAcc st₂.tokens a.patient_token_account =
        some { patientTok with amount := patientTok.amount + amount } ∧
      (vault.amount - amount) + (patientTok.amount + amount) =
        vault.amount + patientTok.amount :=
  reward_patient_effects st a amount record vault patientTok hrec hseeds
    hvault hpat hvauth hres howner hmint hbal hflow hdiff

/-- C5: a record whose `is_verified` is already true is not guarded against
re-invocation — a further `reward_patient(amount)` by the authorized identity
still succeeds and performs another full transfer of `amount` from the vault
to the patient account. -/
theorem reward_patient_reinvocation_transfers_again (st : ChainState)
    (a : RewardPatientAccounts) (amount : Nat) (record : ConsentRecord)
    (vault patientTok : TokenAccount)
    (hver : record.is_verified = true)
    (hrec : lookupAcc st.records a.consent_record = some record)
    (hseeds : a.consent_record = rewardPatientRecordAddress a.patient_wallet record.bump)
    (hvault : lookupAcc st.tokens a.vault_token_account = some vault)
    (hpat : lookupAcc st.tokens a.patient_token_account = some patientTok)
    (hvauth : a.vault_authority = createProgramAddress1 vaultAuthorityTag canonicalBump)
    (hres : a.researcher = RESEARCHER_PUBKEY)
    (howner : vault.owner = a.vault_authority)
    (hmint : vault.mint = patientTok.mint)
    (hbal : amount ≤ vault.amount)
    (hflow : patientTok.amount + amount < 2 ^ 64)
    (hdiff : a.vault_token_account ≠ a.patient_token_account) :
    ∃ st₂, reward_patient st a amount = .ok st₂ ∧
      lookupAcc st₂.tokens a.vault_token_account =
        some { vault with amount := vault.amount - amount } ∧
      lookupAcc st₂.tokens a.patient_token_account =
        some { patientTok with amount := patientTok.amount + amount } := by
  obtain ⟨st₂, hok, -, hv, hp, -⟩ := reward_patient_effects st a amount record
    vault patientTok hrec hseeds hvault hpat hvauth hres howner hmint hbal
    hflow hdiff
  exact ⟨st₂, hok, hv, hp⟩

/-- C7: `reward_patient` relates the token accounts to the consent record's
subject in no way — with the authorized caller and the transfer primitive's
own preconditions satisfied, the transfer succeeds and `amount` lands in the
supplied destination token account even when that account is not owned by the
record's `subject_identity`; the fixed-identity gate is the only
business-logic check. -/
theorem reward_patient_ignores_destination_owner (st : ChainState)
    (a : RewardPatientAccounts) (amount : Nat) (record : ConsentRecord)
    (vault patientTok : TokenAccount)
    (hnotsubj : patientTok.owner ≠ record.patient)
    (hrec : lookupAcc st.records a.consent_record = some record)
    (hseeds : a.consent_record = rewardPatientRecordAddress a.patient_wallet record.bump)
    (hvault : lookupAcc st.tokens a.vault_token_account = some vault)
    (hpat : lookupAcc st.tokens a.patient_token_account = some patientTok)
    (hvauth : a.vault_authority = createProgramAddress1 vaultAuthorityTag canonicalBump)
    (hres : a.researcher = RESEARCHER_PUBKEY)
    (howner : vault.owner = a.vault_authority)
    (hmint : vault.mint = patientTok.mint)
    (hbal : amount ≤ vault.amount)
    (hflow : patientTok.amount + amount < 2 ^ 64)
    (hdiff : a.vault_token_account ≠ a.patient_token_account) :
    ∃ st₂, reward_patient st a amount = .ok st₂ ∧
      lookupAcc st₂.tokens a.patient_token_account =
        some { patientTok with amount := patientTok.amount + amount } := by
  obtain ⟨st₂, hok, -, -, hp, -⟩ := reward_patient_effects st a amount record
    vault patientTok hrec hseeds hvault hpat hvauth hres howner hmint hbal
    hflow hdiff
  exact ⟨st₂, hok, hp⟩

theorem splTransfer_error_eq (st : ChainState) (source dest authority : Pubkey)
    (amount : Nat) (e : PharmaError)
    (h : splTransfer st source dest authority amount = .error e) :
    e = .TransferFailure := by
  simp only [splTransfer] at h
  split at h
  · split at h
    · exact (Except.error.inj h).symm
    · split at h
      · exact (Except.error.inj h).symm
      · split at h
        · exact (Except.error.inj h).symm
        · split at h
          · exact (Except.error.inj h).symm
          · split at h
            · exact Except.noConfusion h
            · exact Except.noConfusion h
  · exact (Except.error.inj h).symm

theorem splTransfer_insufficient (st : ChainState)
    (source dest authority : Pubkey) (amount : Nat) (src dst : TokenAccount)
    (hsrc : lookupAcc st.tokens source = some src)
    (hdst : lookupAcc st.tokens dest = some dst)
    (hbal : src.amount < amount) :
    splTransfer st source dest authority amount = .error .TransferFailure := by
  simp only [splTransfer, hsrc, hdst]
  by_cases h1 : authority ≠ src.owner
  · rw [if_pos h1]
  · rw [if_neg h1]
    by_cases h2 : src.mint ≠ dst.mint
    · rw [if_pos h2]
    · rw [if_neg h2, if_pos hbal]

theorem reward_patient_authorized_eval (st : ChainState)
    (a : RewardPatientAccounts) (amount : Nat) (record : ConsentRecord)
    (vault patientTok : TokenAccount)
    (hrec : lookupAcc st.records a.consent_record = some record)
    (hseeds : a.consent_record = rewardPatientRecordAddress a.patient_wallet record.bump)
    (hvault : lookupAcc st.tokens a.vault_token_account = some vault)
    (hpat : lookupAcc st.tokens a.patient_token_account = some patientTok)
    (hvauth : a.vault_authority = createProgramAddress1 vaultAuthorityTag canonicalBump)
    (hres : a.researcher = RESEARCHER_PUBKEY) :
    reward_patient st a amount =
      splTransfer
        (⟨updateAcc st.records a.consent_record { record with is_verified := true },
          st.tokens⟩ : ChainState)
        a.vault_token_account a.patient_token_account a.vault_authority
        amount := by
  simp only [reward_patient, hrec]
  rw [if_neg (fun h => h hseeds)]
  rw [hvault, hpat]
  simp only [Option.isNone_some, Bool.false_eq_true, if_false]
  rw [if_neg (fun h => h hvauth), if_neg (fun h => h hres)]

theorem reward_patient_unauthorized_eval (st : ChainState)
    (a : RewardPatientAccounts) (amount : Nat) (record : ConsentRecord)
    (vault patientTok : TokenAccount)
    (hrec : lookupAcc st.records a.consent_record = some record)
    (hseeds : a.consent_record = rewardPatientRecordAddress a.patient_wallet record.bump)
    (hvault : lookupAcc st.tokens a.vault_token_account = some vault)
    (hpat : lookupAcc st.tokens a.patient_token_account = some patientTok)
    (hvauth : a.vault_authority = createProgramAddress1 vaultAuthorityTag canonicalBump)
    (hres : a.researcher ≠ RESEARCHER_PUBKEY) :
    reward_patient st a amount = .error .UnauthorizedResearcher := by
  simp only [reward_patient, hrec]
  rw [if_neg (fun h => h hseeds)]
  rw [hvault, hpat]
  simp only [Option.isNone_some, Bool.false_eq_true, if_false]
  rw [if_neg (fun h => h hvauth), if_pos hres]

/-- C2: with the consent record and both token accounts present and the PDA
constraints satisfied, `reward_patient` fails with `UnauthorizedResearcher`
exactly when the signing caller differs from the fixed `RESEARCHER_PUBKEY`;
on that failure the committed ledger state is completely unchanged — no
record field is written and no transfer occurs. -/
theorem reward_patient_unauthorized_iff (st : ChainState)
    (a : RewardPatientAccounts) (amount : Nat) (record : ConsentRecord)
    (vault patientTok : TokenAccount)
    (hrec : lookupAcc st.records a.consent_record = some record)
    (hseeds : a.consent_record = rewardPatientRecordAddress a.patient_wallet record.bump)
    (hvault : lookupAcc st.tokens a.vault_token_account = some vault)
    (hpat : lookupAcc st.tokens a.patient_token_account = some patientTok)
    (hvauth : a.vault_authority = createProgramAddress1 vaultAuthorityTag canonicalBump) :
    (reward_patient st a amount = .error .UnauthorizedResearcher ↔
      a.researcher ≠ RESEARCHER_PUBKEY) ∧
    (a.researcher ≠ RESEARCHER_PUBKEY →
      applyOp st (.reward a amount) = st ∧
      lookupAcc (applyOp st (.reward a amount)).records a.consent_record =
        some record) := by
  have herr : a.researcher ≠ RESEARCHER_PUBKEY →
      reward_patient st a amount = .error .UnauthorizedResearcher :=
    fun hne => reward_patient_unauthorized_eval st a amount record vault
      patientTok hrec hseeds hvault hpat hvauth hne
  constructor
  · constructor
    · intro h
      by_cases hres : a.researcher = RESEARCHER_PUBKEY
      · rw [reward_patient_authorized_eval st a amount record vault patientTok
          hrec hseeds hvault hpat hvauth hres] at h
        exact PharmaError.noConfusion (splTransfer_error_eq _ _ _ _ _ _ h)
      · exact hres
    · exact herr
  · intro hne
    have hstate : applyOp st (.reward a amount) = st := by
      simp only [applyOp, runOp, herr hne]
    exact ⟨hstate, by rw [hstate]; exact hrec⟩

/-- C6: if the external transfer primitive fails during `reward_patient` —
here because the vault balance cannot cover `amount` — the whole operation
aborts with `TransferFailure` and the committed state shows no partial
effect: no balance moves and the consent record, including its `is_verified`
flag, is exactly as before the call, even though the handler writes the flag
before invoking the transfer. -/
theorem reward_patient_transfer_failure_atomic (st : ChainState)
    (a : RewardPatientAccounts) (amount : Nat) (record : ConsentRecord)
    (vault patientTok : TokenAccount)
    (hrec : lookupAcc st.records a.consent_record = some record)
    (hseeds : a.consent_record = rewardPatientRecordAddress a.patient_wallet record.bump)
    (hvault : lookupAcc st.tokens a.vault_token_account = some vault)
    (hpat : lookupAcc st.tokens a.patient_token_account = some patientTok)
    (hvauth : a.vault_authority = createProgramAddress1 vaultAuthorityTag canonicalBump)
    (hres : a.researcher = RESEARCHER_PUBKEY)
    (hbal : vault.amount < amount) :
    reward_patient st a amount = .error .TransferFailure ∧
    applyOp st (.reward a amount) = st ∧
    lookupAcc (applyOp st (.reward a amount)).records a.consent_record =
      some record := by
  have herr : reward_patient st a amount = .error .TransferFailure := by
    rw [reward_patient_authorized_eval st a amount record vault patientTok
      hrec hseeds hvault hpat hvauth hres]
    exact splTransfer_insufficient _ _ _ _ _ vault patientTok hvault hpat hbal
  have hstate : applyOp st (.reward a amount) = st := by
    simp only [applyOp, runOp, herr]
  exact ⟨herr, hstate, by rw [hstate]; exact hrec⟩

theorem splTransfer_ok_records (st st₂ : ChainState)
    (source dest authority : Pubkey) (amount : Nat)
    (h : splTransfer st source dest authority amount = .ok st₂) :
    st₂.records = st.records := by
  simp only [splTransfer] at h
  split at h
  · split at h
    · exact Except.noConfusion h
    · split at h
      · exact Except.noConfusion h
      · split at h
        · exact Except.noConfusion h
        · split at h
          · exact Except.noConfusion h
          · split at h
            · cases h
              rfl
            · cases h
              rfl
  · exact Except.noConfusion h

theorem reward_patient_ok_inv (st st₂ : ChainState)
    (a : RewardPatientAccounts) (amount : Nat)
    (h : reward_patient st a amount = .ok st₂) :
    ∃ record, lookupAcc st.records a.consent_record = some record ∧
      a.consent_record = rewardPatientRecordAddress a.patient_wallet record.bump ∧
      st₂.records =
        updateAcc st.records a.consent_record
          { record with is_verified := true } := by
  simp only [reward_patient] at h
  cases hrec : lookupAcc st.records a.consent_record with
  | none =>
    rw [hrec] at h
    exact Except.noConfusion h
  | some record =>
    simp only [hrec] at h
    split at h
    · exact Except.noConfusion h
    · split at h
      · exact Except.noConfusion h
      · split at h
        · exact Except.noConfusion h
        · split at h
          · exact Except.noConfusion h
          · split at h
            · exact Except.noConfusion h
            · rename_i hseeds _ _ _ _
              refine ⟨record, rfl, not_ne_iff.mp hseeds, ?_⟩
              rw [splTransfer_ok_records _ _ _ _ _ _ h]

theorem applyOp_preserves_record (st : ChainState) (op : Op) (addr : Pubkey)
    (h : (lookupAcc st.records addr).isSome) :
    (lookupAcc (applyOp st op).records addr).isSome := by
  cases hrun : runOp st op with
  | error e =>
    simp only [applyOp, hrun]
    exact h
  | ok st₂ =>
    simp only [applyOp, hrun]
    cases op with
    | sign S H =>
      obtain ⟨hrecs, -⟩ := sign_consent_ok_state st st₂ S H hrun
      rw [hrecs, lookupAcc_cons]
      by_cases hx : signConsentRecordAddress S canonicalBump = addr
      · rw [if_pos hx]
        rfl
      · rw [if_neg hx]
        exact h
    | reward a amount =>
      obtain ⟨record, hrec, -, hrecs⟩ := reward_patient_ok_inv st st₂ a amount hrun
      rw [hrecs, isSome_lookupAcc_updateAcc]
      exact h

theorem applyOps_preserves_record (ops : List Op) (st : ChainState)
    (addr : Pubkey) (h : (lookupAcc st.records addr).isSome) :
    (lookupAcc (applyOps st ops).records addr).isSome := by
  induction ops generalizing st with
  | nil => exact h
  | cons op rest ih =>
    simp only [applyOps, List.foldl_cons]
    exact ih (applyOp st op) (applyOp_preserves_record st op addr h)

/-- C3: once `sign_consent(S, H)` has succeeded, every later
`sign_consent(S, H')` for the same subject — after any sequence of further
transactions, and for every hash — fails with `AddressCollision`: the record
address is derived deterministically from `("consent", S)`, a record already
occupies it, and no operation ever removes it. -/
theorem sign_consent_second_always_collides (st st' : ChainState) (S : Pubkey)
    (H : Bytes) (h : sign_consent st S H = .ok st') (ops : List Op)
    (H' : Bytes) :
    sign_consent (applyOps st' ops) S H' = .error .AddressCollision := by
  obtain ⟨hrecs, -⟩ := sign_consent_ok_state st st' S H h
  have hsome : (lookupAcc st'.records (signConsentRecordAddress S canonicalBump)).isSome := by
    rw [hrecs, lookupAcc_cons, if_pos rfl]
    rfl
  exact sign_consent_collision _ S H'
    (applyOps_preserves_record ops st' _ hsome)

/-- C8: `reward_patient` — the only operation that touches an existing
record — writes only the `is_verified` field: on success the record at the
consent address keeps its `patient` (subject identity), `agreement_hash` and
`bump` unchanged with `is_verified = true`, and every record at any other
address is untouched. -/
theorem reward_patient_writes_only_is_verified (st st₂ : ChainState)
    (a : RewardPatientAccounts) (amount : Nat) (r : ConsentRecord)
    (h : reward_patient st a amount = .ok st₂)
    (hr : lookupAcc st.records a.consent_record = some r) :
    lookupAcc st₂.records a.consent_record =
      some { patient := r.patient, agreement_hash := r.agreement_hash,
             is_verified := true, bump := r.bump } ∧
    ∀ addr, addr ≠ a.consent_record →
      lookupAcc st₂.records addr = lookupAcc st.records addr := by
  obtain ⟨record, hrec, -, hrecs⟩ := reward_patient_ok_inv st st₂ a amount h
  rw [hr] at hrec
  cases hrec
  constructor
  · rw [hrecs]
    exact lookupAcc_updateAcc_self st.records a.consent_record _ r hr
  · intro addr haddr
    rw [hrecs]
    exact lookupAcc_updateAcc_other st.records a.consent_record _ addr haddr

/-- C9: every operation preserves the invariant that each reachable consent
record lives at the address derived from `("consent", record.patient)` with
the record's stored derivation bump; consequently a `reward_patient` call
that accepts a consent record — in particular every successful call — only
accepts one whose stored `patient` equals the supplied `patient_wallet`
key. -/
theorem consent_record_address_invariant (st : ChainState) (op : Op)
    (hinv : RecInv st) :
    RecInv (applyOp st op) ∧
    (∀ a amount st₂, reward_patient st a amount = .ok st₂ →
      ∀ r, lookupAcc st.records a.consent_record = some r →
        r.patient = a.patient_wallet) := by
  constructor
  · cases hrun : runOp st op with
    | error e =>
      simp only [applyOp, hrun]
      exact hinv
    | ok st₂ =>
      simp only [applyOp, hrun]
      cases op with
      | sign S H =>
        obtain ⟨hrecs, -⟩ := sign_consent_ok_state st st₂ S H hrun
        intro addr r hlook
        rw [hrecs, lookupAcc_cons] at hlook
        by_cases hx : signConsentRecordAddress S canonicalBump = addr
        · rw [if_pos hx] at hlook
          cases hlook
          exact ⟨hx.symm, rfl⟩
        · rw [if_neg hx] at hlook
          exact hinv addr r hlook
      | reward a amount =>
        obtain ⟨record, hrec, -, hrecs⟩ := reward_patient_ok_inv st st₂ a amount hrun
        intro addr r hlook
        rw [hrecs, lookupAcc_updateAcc] at hlook
        by_cases hx : addr = a.consent_record
        · rw [if_pos hx, hrec] at hlook
          cases hlook
          obtain ⟨h1, h2⟩ := hinv a.consent_record record hrec
          exact ⟨hx.trans h1, h2⟩
        · rw [if_neg hx] at hlook
          exact hinv addr r hlook
  · intro a amount st₂ hok r hr
    obtain ⟨record, hrec, hseeds, -⟩ := reward_patient_ok_inv st st₂ a amount hok
    rw [hr] at hrec
    cases hrec
    obtain ⟨h1, -⟩ := hinv a.consent_record r hr
    have h2 := hseeds.symm.trans h1
    simp only [rewardPatientRecordAddress, createProgramAddress2,
      Pubkey.pdaTagKey.injEq, true_and, and_true] at h2
    exact h2.symm

/-- C10: address derivation is pure and deterministic — deriving from
`("consent", S)` twice yields the identical address, and the derivation used
by `SignConsent` to create the record and the one used by `RewardPatient` to
locate it agree on the same tag and key material. -/
theorem consent_address_derivation_agrees (S : Pubkey) (b : Nat) :
    signConsentRecordAddress S b = signConsentRecordAddress S b ∧
    signConsentRecordAddress S b = rewardPatientRecordAddress S b :=
  ⟨rfl, rfl⟩

/-! ### Witnesses: the theorems applied to the concrete demo ledger -/

/-- Witness for C1: the authorized call moves 1000 units on the demo ledger
and verifies alice's record. -/
theorem reward_patient_authorized_transfers_witness :
    ∃ st₂, reward_patient demoState demoAccounts 1000 = .ok st₂ ∧
      lookupAcc st₂.records demoAccounts.consent_record =
        some { aliceRecord with is_verified := true } ∧
      lookupAcc st₂.tokens demoAccounts.vault_token_account =
        some { vaultAcc with amount := vaultAcc.amount - 1000 } ∧
      lookupAcc st₂.tokens demoAccounts.patient_token_account =
        some { patientAcc with amount := patientAcc.amount + 1000 } ∧
      (vaultAcc.amount - 1000) + (patientAcc.amount + 1000) =
        vaultAcc.amount + patientAcc.amount :=
  reward_patient_authorized_transfers demoState demoAccounts 1000 aliceRecord
    vaultAcc patientAcc (by decide) (by decide) (by decide) (by decide)
    (by decide) (by decide) (by decide) (by decide) (by decide) (by decide)
    (by decide)

/-- Witness for C2: the same call signed by a stranger fails with
`UnauthorizedResearcher` and commits nothing. -/
theorem reward_patient_unauthorized_iff_witness :
    (reward_patient demoState strangerAccounts 1000 =
        .error .UnauthorizedResearcher ↔
      strangerAccounts.researcher ≠ RESEARCHER_PUBKEY) ∧
    (strangerAccounts.researcher ≠ RESEARCHER_PUBKEY →
      applyOp demoState (.reward strangerAccounts 1000) = demoState ∧
      lookupAcc (applyOp demoState (.reward strangerAccounts 1000)).records
          strangerAccounts.consent_record = some aliceRecord) :=
  reward_patient_unauthorized_iff demoState strangerAccounts 1000 aliceRecord
    vaultAcc patientAcc (by decide) (by decide) (by decide) (by decide)
    (by decide)

/-- Witness for C3: after alice signs once, signing again with a different
hash — even after an unrelated transaction — collides. -/
theorem sign_consent_second_always_collides_witness :
    sign_consent (applyOps signedState [.sign (.base 7) otherHash]) alicePk
      otherHash = .error .AddressCollision :=
  sign_consent_second_always_collides emptyState signedState alicePk aliceHash
    (by rfl) [.sign (.base 7) otherHash] otherHash

/-- Witness for C4: alice's first `sign_consent` on the empty ledger creates
exactly the expected record. -/
theorem sign_consent_first_creates_record_witness :
    ∃ st', sign_consent emptyState alicePk aliceHash = .ok st' ∧
      lookupAcc st'.records (signConsentRecordAddress alicePk canonicalBump) =
        some { patient := alicePk, agreement_hash := aliceHash,
               is_verified := false, bump := canonicalBump } :=
  sign_consent_first_creates_record emptyState alicePk aliceHash (by decide)
    (by decide) (by decide)

/-- Witness for C5: rewarding alice's already-verified record transfers the
full amount again. -/
theorem reward_patient_reinvocation_transfers_again_witness :
    ∃ st₂, reward_patient demoStateVerified demoAccounts 1000 = .ok st₂ ∧
      lookupAcc st₂.tokens demoAccounts.vault_token_account =
        some { vaultAcc with amount := vaultAcc.amount - 1000 } ∧
      lookupAcc st₂.tokens demoAccounts.patient_token_account =
        some { patientAcc with amount := patientAcc.amount + 1000 } :=
  reward_patient_reinvocation_transfers_again demoStateVerified demoAccounts
    1000 aliceRecordVerified vaultAcc patientAcc (by decide) (by decide)
    (by decide) (by decide) (by decide) (by decide) (by decide) (by decide)
    (by decide) (by decide) (by decide) (by decide)

/-- Witness for C6: asking for more than the vault holds aborts with
`TransferFailure` and leaves the demo ledger untouched. -/
theorem reward_patient_transfer_failure_atomic_witness :
    reward_patient demoState demoAccounts 999999 = .error .TransferFailure ∧
    applyOp demoState (.reward demoAccounts 999999) = demoState ∧
    lookupAcc (applyOp demoState (.reward demoAccounts 999999)).records
        demoAccounts.consent_record = some aliceRecord :=
  reward_patient_transfer_failure_atomic demoState demoAccounts 999999
    aliceRecord vaultAcc patientAcc (by decide) (by decide) (by decide)
    (by decide) (by decide) (by decide) (by decide)

/-- Witness for C7: the reward lands in a destination account owned by a
stranger, not by the record's subject. -/
theorem reward_patient_ignores_destination_owner_witness :
    ∃ st₂, reward_patient demoStateStranger demoAccounts 1000 = .ok st₂ ∧
      lookupAcc st₂.tokens demoAccounts.patient_token_account =
        some { strangerAcc with amount := strangerAcc.amount + 1000 } :=
  reward_patient_ignores_destination_owner demoStateStranger demoAccounts 1000
    aliceRecord vaultAcc strangerAcc (by decide) (by decide) (by decide)
    (by decide) (by decide) (by decide) (by decide) (by decide) (by decide)
    (by decide) (by decide) (by decide)

/-- Witness for C8: the committed rewarded state changes only alice's
`is_verified` flag among the records. -/
theorem reward_patient_writes_only_is_verified_witness :
    lookupAcc demoStateRewarded.records demoAccounts.consent_record =
      some { patient := aliceRecord.patient,
             agreement_hash := aliceRecord.agreement_hash,
             is_verified := true, bump := aliceRecord.bump } ∧
    ∀ addr, addr ≠ demoAccounts.consent_record →
      lookupAcc demoStateRewarded.records addr =
        lookupAcc demoState.records addr :=
  reward_patient_writes_only_is_verified demoState demoStateRewarded
    demoAccounts 1000 aliceRecord (by rfl) (by decide)

/-- Witness for C9: the invariant survives alice's signing of the empty
ledger, where it holds vacuously. -/
theorem consent_record_address_invariant_witness :
    RecInv (applyOp emptyState (.sign alicePk aliceHash)) ∧
    (∀ a amount st₂, reward_patient emptyState a amount = .ok st₂ →
      ∀ r, lookupAcc emptyState.records a.consent_record = some r →
        r.patient = a.patient_wallet) :=
  consent_record_address_invariant emptyState (.sign alicePk aliceHash)
    (by intro addr r h; simp [emptyState, lookupAcc] at h)

end PharmaTrace
